import Mathlib

/-!
# Verification of the `create-dash-app` project generator

A shallow embedding of the core logic of the `create_dash_app` Python
package: the `ProjectConfig` pydantic model with its `validate_none`
field validator (`models/project_config.py`), and the
`ProjectGenerator` pipeline (`generator.py`): directory creation,
template enumeration, template processing with target-path computation,
the tailwind / uv post-processing steps, and rollback on error.

The filesystem is modelled as explicit lists of directory paths and
(file path, content) pairs; paths are lists of name components, with
`[]` standing for the current directory `Path "."`.  External effects
(jinja template lookup and rendering, npm / uv subprocesses) are
parameters of the embedded functions.
-/

set_option autoImplicit false

namespace CreateDashApp

/-! ## Python string helpers

`pathlib.PurePath.suffix` / `.stem` and `str.lower` / `in`, as used by
`generator.py` (`template.suffix`, `template.stem`,
`"pre-commit" in template.name.lower()`, `template.name.startswith(".")`).
-/

/-- Index of the last occurrence of a character in a list, if any
(the `str.rfind` used by `pathlib` to locate the extension dot). -/
def lastIdxOf (c : Char) : List Char → Option Nat
  | [] => none
  | a :: rest =>
    match lastIdxOf c rest with
    | some i => some (i + 1)
    | none => if a = c then some 0 else none

/-- The `pathlib.PurePath.suffix` of a file name: the part from the last dot,
provided that dot is neither the first nor the last character; `""`
otherwise (so `".env"` and `"file."` have no suffix). -/
def pySuffix (name : String) : String :=
  match lastIdxOf '.' name.data with
  | some i => if 0 < i ∧ i + 1 < name.data.length then String.mk (name.data.drop i) else ""
  | none => ""

/-- The `pathlib.PurePath.stem` of a file name: the name with `pySuffix`
removed. -/
def pyStem (name : String) : String :=
  match lastIdxOf '.' name.data with
  | some i => if 0 < i ∧ i + 1 < name.data.length then String.mk (name.data.take i) else name
  | none => name

/-- Tests whether `needle` occurs as a contiguous run at the head of `hay`. -/
def leadChars : List Char → List Char → Bool
  | [], _ => true
  | _ :: _, [] => false
  | a :: as, b :: bs => a = b && leadChars as bs

/-- Tests whether `needle` occurs contiguously somewhere in `hay`
(Python's `needle in hay` on strings). -/
def occursIn (needle : List Char) : List Char → Bool
  | [] => leadChars needle []
  | b :: bs => leadChars needle (b :: bs) || occursIn needle bs

/-- Python's substring test `n in h`. -/
def substrOf (n h : String) : Bool :=
  occursIn n.data h.data

/-- Python's `str.lower()` (ASCII case folding, as needed for the
template file names involved), written over the character list. -/
def pyLower (s : String) : String :=
  String.mk (s.data.map Char.toLower)

/-- Python's `name.startswith(".")`, written over the character list. -/
def startsWithDot (name : String) : Bool :=
  leadChars ['.'] name.data

/-! ## `ProjectConfig` and the `validate_none` field validator
(`models/project_config.py`) -/

/-- A Python value as it can reach the pydantic `mode="before"` field
validator `validate_none` (annotated `Any`). -/
inductive PyValue where
  | pyNone
  | pyBool (b : Bool)
  | pyInt (n : Int)
  | pyStr (s : String)
  | pyList (xs : List PyValue)
deriving Repr

/-- Python truthiness (`if not value`). -/
def truthy : PyValue → Bool
  | .pyNone => false
  | .pyBool b => b
  | .pyInt n => n != 0
  | .pyStr s => s != ""
  | .pyList xs => !xs.isEmpty

/-- Python equality with the string literal `"none"`: only a `str` with
those characters compares equal. -/
def isNoneStr : PyValue → Bool
  | .pyStr s => s = "none"
  | _ => false

/-- The wrapping step of `validate_none`:
`value if isinstance(value, list) else [value]`. -/
def toPyList : PyValue → List PyValue
  | .pyList xs => xs
  | v => [v]

/-- The `validate_none` field validator of `ProjectConfig`
(`styling` and `animations`, `mode="before"`):
falsy input becomes `[]`; a non-list is wrapped into a one-element
list; `"none"` entries are filtered out; if `"none"` was present and
nothing remains, `[]` is returned. -/
def validate_none (value : PyValue) : List PyValue :=
  if !truthy value then []
  else
    let xs := toPyList value
    let filtered := xs.filter (fun v => !isNoneStr v)
    if xs.any isNoneStr && filtered.isEmpty then []
    else filtered

/-- Pydantic's element validation against the `List[str]` annotation:
succeeds iff every element is a `str`, yielding the strings. -/
def pyStrListOf : List PyValue → Option (List String)
  | [] => some []
  | .pyStr s :: rest => (pyStrListOf rest).map (fun l => s :: l)
  | _ => none

/-- The `ProjectConfig` pydantic model (`models/project_config.py`). -/
structure ProjectConfig where
  project_name : String
  author_name : String
  author_email : String
  description : String
  styling : List String
  animations : List String
  include_pages : Bool
  include_tests : Bool
  include_auth : Bool
  include_database : Bool
  include_docker : Bool
  configure_pre_commit : Bool
  port : Int
deriving Repr, DecidableEq

/-- The raw keyword arguments of a `ProjectConfig(**config)` call:
`styling` and `animations` may be any Python value, the rest are typed
by the prompts. -/
structure RawConfigInput where
  project_name : String
  author_name : String
  author_email : String
  description : String
  styling : PyValue
  animations : PyValue
  include_pages : Bool
  include_tests : Bool
  include_auth : Bool
  include_database : Bool
  include_docker : Bool
  configure_pre_commit : Bool
  port : Int

/-- Construction `ProjectConfig(**raw)`: pydantic runs `validate_none` on `styling`
and `animations` (`mode="before"`), then validates the result against
`List[str]`; construction fails (`ValidationError`) if an element is
not a string. -/
def ProjectConfig.construct (raw : RawConfigInput) : Option ProjectConfig :=
  match pyStrListOf (validate_none raw.styling), pyStrListOf (validate_none raw.animations) with
  | some st, some an =>
    some { project_name := raw.project_name
           author_name := raw.author_name
           author_email := raw.author_email
           description := raw.description
           styling := st
           animations := an
           include_pages := raw.include_pages
           include_tests := raw.include_tests
           include_auth := raw.include_auth
           include_database := raw.include_database
           include_docker := raw.include_docker
           configure_pre_commit := raw.configure_pre_commit
           port := raw.port }
  | _, _ => none

/-! ## Filesystem model

Paths are lists of name components relative to the working directory;
`[]` is the current directory (`Path "."`).  A filesystem is the list
of directories and of (file, content) pairs that exist.
-/

/-- A filesystem path, as components; `[]` is the current directory. -/
abbrev FPath := List String

/-- Tests whether `p` is a leading segment of `q` (so `rmtree p` removes `q`). -/
def leadSeg : FPath → FPath → Bool
  | [], _ => true
  | _ :: _, [] => false
  | a :: as, b :: bs => a = b && leadSeg as bs

/-- All nonempty leading segments of a path (the ancestors a
`mkdir(parents=True)` creates, the path itself included). -/
def ancestors : FPath → List FPath
  | [] => []
  | x :: rest => [x] :: (ancestors rest).map (fun q => x :: q)

/-- The modelled filesystem state. -/
structure FS where
  dirs : List FPath
  files : List (FPath × String)
deriving Repr, DecidableEq

/-- The `os.path.exists` test: the current directory always exists; otherwise the
path must be a known directory or file. -/
def FS.existsPath (fs : FS) (p : FPath) : Bool :=
  p.isEmpty || fs.dirs.any (fun q => q = p) || fs.files.any (fun f => f.1 = p)

/-- The `Path.mkdir(parents=True, exist_ok=True)` / `os.makedirs` effect: record the
directory and all its ancestors. -/
def FS.mkdirParents (fs : FS) (p : FPath) : FS :=
  { fs with dirs := ancestors p ++ fs.dirs }

/-- Writing a file: `open(target, "w").write(content)`. -/
def FS.writeFile (fs : FS) (p : FPath) (content : String) : FS :=
  { fs with files := (p, content) :: fs.files }

/-- The `shutil.rmtree` effect: remove the directory and everything beneath it. -/
def FS.rmtree (fs : FS) (p : FPath) : FS :=
  { dirs := fs.dirs.filter (fun q => !leadSeg p q)
    files := fs.files.filter (fun f => !leadSeg p f.1) }

/-! ## `ProjectGenerator` (`generator.py`) -/

/-- The exceptions the embedded pipeline can raise. -/
inductive GenError where
  | fileExists (name : String)
  | templateNotFound (name : String)
deriving Repr, DecidableEq

/-- The mutable attributes of a `ProjectGenerator` together with the
filesystem it acts on.  `project_path = []` models `Path(".")`. -/
structure GenState where
  project_name : String
  project_path : FPath
  fs : FS
deriving Repr, DecidableEq

/-- The `ProjectGenerator.__init__` state: `project_path` starts as `Path(".")`. -/
def initState (project_name : String) (fs : FS) : GenState :=
  { project_name := project_name, project_path := [], fs := fs }

/-- Step `ProjectGenerator._create_project_dirs`: for project name `"."`,
adopt the basename of the current working directory as project name and
keep `Path(".")` as project path; otherwise reject an existing target
with `FileExistsError`, else create the root directory.  In both
success cases also create `<project_path>/src/pages`. -/
def createProjectDirs (cwdName : String) (st : GenState) : GenState × Option GenError :=
  if st.project_name = "." then
    let st1 : GenState := { st with project_name := cwdName, project_path := [] }
    ({ st1 with fs := st1.fs.mkdirParents (st1.project_path ++ ["src", "pages"]) }, none)
  else
    if st.fs.existsPath [st.project_name] then
      (st, some (.fileExists st.project_name))
    else
      let st1 : GenState := { st with
        fs := st.fs.mkdirParents [st.project_name]
        project_path := [st.project_name] }
      ({ st1 with fs := st1.fs.mkdirParents (st1.project_path ++ ["src", "pages"]) }, none)

/-- A template file as enumerated on disk: its directory path relative
to its base directory, its file name, and whether the entry is a
regular file (`is_file()`). -/
structure TemplateFile where
  relDir : FPath
  name : String
  isFile : Bool
deriving Repr, DecidableEq

/-- The Jinja2 environment: template lookup by name (against the
`FileSystemLoader` search path) and rendering against a configuration.
`lookup = none` models `get_template` raising. -/
structure JinjaEnv where
  lookup : String → Option String
  render : String → ProjectConfig → String

/-- The `str(template_rel_path)` form: the relative path as a string. -/
def relPathStr (t : TemplateFile) : String :=
  String.intercalate ("/") (t.relDir ++ [t.name])

/-- The template loading of `_process_template_file`: try the path
relative to the base directory first; only if that raises, fall back to
the bare filename. -/
def getTemplateFallback (env : JinjaEnv) (relPath name : String) : Option String :=
  match env.lookup relPath with
  | some t => some t
  | none => env.lookup name

/-- Output file name: the template name with the `.jinja` extension
removed when present (`template.stem if template.suffix == ".jinja"
else template.name`). -/
def outputFilename (name : String) : String :=
  if pySuffix name = ".jinja" then pyStem name else name

/-- Step `ProjectGenerator._process_template_file`: load the template (with
bare-name fallback), skip pre-commit configurations when not chosen,
otherwise render against the configuration and write into the project
root (root templates) or under `src/` mirroring the relative directory
(variant templates). -/
def processTemplateFile (env : JinjaEnv) (t : TemplateFile) (config : ProjectConfig)
    (isRootTemplate : Bool) (st : GenState) : GenState × Option GenError :=
  match getTemplateFallback env (relPathStr t) t.name with
  | none => (st, some (.templateNotFound t.name))
  | some tsrc =>
    if !config.configure_pre_commit && substrOf ("pre-commit") (pyLower t.name) then
      (st, none)
    else
      let rendered := env.render tsrc config
      let targetDir := if isRootTemplate then st.project_path
                       else st.project_path ++ ["src"] ++ t.relDir
      let fs1 := (st.fs.mkdirParents targetDir).writeFile
                   (targetDir ++ [outputFilename t.name]) rendered
      ({ st with fs := fs1 }, none)

/-- The hidden-file condition of `_generate_files`:
`not template.name.startswith(".") or template.suffix == ".jinja"`. -/
def hiddenAllowed (name : String) : Bool :=
  !startsWithDot name || decide (pySuffix name = ".jinja")

/-- One enumeration loop of `_generate_files`: process each entry that
is a regular file and passes the hidden-file condition; an exception
aborts the loop with the state reached so far. -/
def processTemplates (env : JinjaEnv) (config : ProjectConfig) (isRootTemplate : Bool) :
    List TemplateFile → GenState → GenState × Option GenError
  | [], st => (st, none)
  | t :: rest, st =>
    if t.isFile && hiddenAllowed t.name then
      match processTemplateFile env t config isRootTemplate st with
      | (st1, some e) => (st1, some e)
      | (st1, none) => processTemplates env config isRootTemplate rest st1
    else
      processTemplates env config isRootTemplate rest st

/-- Step `ProjectGenerator._generate_files`: the shared set is the
non-recursive `iterdir()` of `templates/` (entries are bare names, so
their relative directory is `[]`); the variant set is the recursive
`rglob("*")` of `templates/<type>/`. -/
def generateFiles (env : JinjaEnv) (rootEntries : List (String × Bool))
    (variantEntries : List TemplateFile) (config : ProjectConfig) (st : GenState) :
    GenState × Option GenError :=
  match processTemplates env config true
      (rootEntries.map (fun e => { relDir := [], name := e.1, isFile := e.2 })) st with
  | (st1, some e) => (st1, some e)
  | (st1, none) => processTemplates env config false variantEntries st1

/-- Step `ProjectGenerator._setup_tailwind_css`: a no-op unless `"tailwind"`
is among the styling choices; npm shell-outs are oracles; every
exception is caught internally, so the step never raises.  On the
successful path it writes `package.json` (npm init), the
`src/assets/tailwind.css` entry file, `tailwind.config.js`, and the
updated `package.json` with build scripts. -/
def setupTailwindCss (npmInitOk npmInstallOk : Bool)
    (config : ProjectConfig) (st : GenState) : GenState :=
  if !config.styling.any (fun s => s = "tailwind") then st
  else
    let hasPkg := st.fs.existsPath (st.project_path ++ ["package.json"])
    if !hasPkg && !npmInitOk then st
    else
      let fs0 := if hasPkg then st.fs
                 else st.fs.writeFile (st.project_path ++ ["package.json"]) "npm-init"
      if !npmInstallOk then { st with fs := fs0 }
      else
        let fs1 := (fs0.mkdirParents (st.project_path ++ ["src", "assets"])).writeFile
                     (st.project_path ++ ["src", "assets", "tailwind.css"])
                     "@import \x22tailwindcss\x22;\n"
        let fs2 := fs1.writeFile (st.project_path ++ ["tailwind.config.js"])
                     "tailwind-config-js"
        let fs3 := fs2.writeFile (st.project_path ++ ["package.json"])
                     "package-json-with-build-scripts"
        { st with fs := fs3 }

/-- Step `ProjectGenerator._initialize_uv_dependencies`: skipped when
`pyproject.toml` is missing; on a successful `uv sync` the lock file
appears; all subprocess failures are caught internally. -/
def initializeUvDependencies (uvOk : Bool) (st : GenState) : GenState :=
  if !st.fs.existsPath (st.project_path ++ ["pyproject.toml"]) then st
  else if uvOk then
    { st with fs := st.fs.writeFile (st.project_path ++ ["uv.lock"]) "uv-lock" }
  else st

/-- Step `ProjectGenerator._cleanup_on_error`: remove the project directory
when `project_path` is not `Path(".")` and exists; when it is
`Path(".")`, delete nothing and only issue a warning (the returned
flag). -/
def cleanupOnError (st : GenState) : GenState × Bool :=
  if st.project_path ≠ [] ∧ st.fs.existsPath st.project_path then
    ({ st with fs := st.fs.rmtree st.project_path }, false)
  else if st.project_path = [] then
    (st, true)
  else
    (st, false)

/-- The outcome of a `generate_project` call: the final state, the
exception caught by its `except` clause (if any), and whether the
cleanup issued the current-directory warning. -/
structure RunResult where
  final : GenState
  caughtError : Option GenError
  cleanupWarned : Bool
deriving Repr, DecidableEq

/-- The driver `ProjectGenerator.generate_project`: run the pipeline steps in
order; on the first exception run `_cleanup_on_error` and report the
error.  `_make_executable_files` and `_display_next_steps` only echo
and are omitted. -/
def generateProject (cwdName : String) (env : JinjaEnv)
    (rootEntries : List (String × Bool)) (variantEntries : List TemplateFile)
    (npmInitOk npmInstallOk uvOk : Bool)
    (config : ProjectConfig) (st : GenState) : RunResult :=
  match createProjectDirs cwdName st with
  | (st1, some e) =>
    let c := cleanupOnError st1
    { final := c.1, caughtError := some e, cleanupWarned := c.2 }
  | (st1, none) =>
    match generateFiles env rootEntries variantEntries config st1 with
    | (st2, some e) =>
      let c := cleanupOnError st2
      { final := c.1, caughtError := some e, cleanupWarned := c.2 }
    | (st2, none) =>
      let st3 := setupTailwindCss npmInitOk npmInstallOk config st2
      let st4 := initializeUvDependencies uvOk st3
      { final := st4, caughtError := none, cleanupWarned := false }

/-- Target location written per the specification's own wording: a root
template's output goes directly at the generated project's top level; a
variant template's output goes under the project's `src/` subdirectory
at a path mirroring the template's path relative to
`templates/<type>/`. -/
def specTargetPath (projectPath : FPath) (isRootTemplate : Bool) (relDir : FPath)
    (outName : String) : FPath :=
  if isRootTemplate then projectPath ++ [outName]
  else projectPath ++ ["src"] ++ relDir ++ [outName]


/-! ## Concrete fixtures used by the witness theorems -/

/-- A concrete Jinja2 environment with three loadable templates. -/
def envA : JinjaEnv :=
  { lookup := fun s =>
      if s = "pyproject.toml.jinja" then some ("PYPROJECT-TEMPLATE")
      else if s = ".pre-commit-config.yaml.jinja" then some ("PRECOMMIT-TEMPLATE")
      else if s = "pages/home.py.jinja" then some ("HOMEPAGE-TEMPLATE")
      else none
    render := fun tsrc config => tsrc ++ ":" ++ config.project_name }

/-- A Jinja2 environment in which every lookup raises. -/
def envEmpty : JinjaEnv :=
  { lookup := fun _ => none
    render := fun tsrc _ => tsrc }

/-- A concrete configuration (pre-commit configuration enabled). -/
def cfgA : ProjectConfig :=
  { project_name := "proj"
    author_name := "Ada"
    author_email := "ada@example.com"
    description := "A Dash application"
    styling := ["tailwind"]
    animations := []
    include_pages := false
    include_tests := true
    include_auth := false
    include_database := false
    include_docker := true
    configure_pre_commit := true
    port := 8000 }

/-- The concrete configuration with pre-commit configuration disabled. -/
def cfgB : ProjectConfig :=
  { cfgA with configure_pre_commit := false }

/-- Raw keyword arguments whose validation yields `cfgA`. -/
def rawA : RawConfigInput :=
  { project_name := "proj"
    author_name := "Ada"
    author_email := "ada@example.com"
    description := "A Dash application"
    styling := PyValue.pyList [PyValue.pyStr ("none"), PyValue.pyStr ("tailwind")]
    animations := PyValue.pyStr ("none")
    include_pages := false
    include_tests := true
    include_auth := false
    include_database := false
    include_docker := true
    configure_pre_commit := true
    port := 8000 }

/-- A variant template under `templates/basic/pages/`. -/
def tHome : TemplateFile :=
  { relDir := ["pages"], name := "home.py.jinja", isFile := true }

/-- The shared pre-commit configuration template. -/
def tPre : TemplateFile :=
  { relDir := [], name := ".pre-commit-config.yaml.jinja", isFile := true }

/-- A small generator state inside an already-created project root. -/
def stC3 : GenState :=
  { project_name := "proj", project_path := ["proj"], fs := ⟨[], []⟩ }

/-- The state produced by `_create_project_dirs` for a fresh `proj`. -/
def c7out : GenState :=
  { project_name := "proj"
    project_path := ["proj"]
    fs := { dirs := [["proj"], ["proj", "src"], ["proj", "src", "pages"], ["proj"]]
            files := [] } }

/-! ## Helper lemmas: strings and the field validator -/

theorem string_append_mk (a b : List Char) :
    String.mk a ++ String.mk b = String.mk (a ++ b) := rfl

theorem pyStem_append_pySuffix (name : String) (h : pySuffix name ≠ "") :
    pyStem name ++ pySuffix name = name := by
  unfold pySuffix at h
  unfold pyStem pySuffix
  cases hL : lastIdxOf '.' name.data with
  | none => rw [hL] at h; exact absurd rfl h
  | some i =>
    rw [hL] at h
    dsimp only at h ⊢
    by_cases hc : 0 < i ∧ i + 1 < name.data.length
    · rw [if_pos hc, if_pos hc]
      rw [string_append_mk, List.take_append_drop]
    · rw [if_neg hc] at h
      exact absurd rfl h

theorem validate_none_all_not_none (v : PyValue) :
    (validate_none v).all (fun w => !isNoneStr w) = true := by
  unfold validate_none
  split
  · rfl
  · dsimp only
    split
    · rfl
    · rw [List.all_eq_true]
      intro w hw
      exact (List.mem_filter.mp hw).2

theorem validate_none_falsy (v : PyValue) (h : truthy v = false) :
    validate_none v = [] := by
  unfold validate_none
  rw [h]
  rfl

theorem validate_none_idem (v : PyValue) :
    validate_none (PyValue.pyList (validate_none v)) = validate_none v := by
  have hall := validate_none_all_not_none v
  cases hl : validate_none v with
  | nil => rfl
  | cons w ws =>
    rw [hl, List.all_eq_true] at hall
    have hfilter : (w :: ws).filter (fun v => !isNoneStr v) = w :: ws :=
      List.filter_eq_self.mpr hall
    have hany : (w :: ws).any isNoneStr = false := by
      rw [List.any_eq_false]
      intro x hx
      have := hall x hx
      simpa using this
    unfold validate_none
    rw [show truthy (PyValue.pyList (w :: ws)) = true by simp [truthy]]
    dsimp only [toPyList]
    rw [hany, hfilter]
    rfl

theorem validate_none_wrap (v : PyValue) (ht : truthy v = true)
    (hv : ∀ xs, v ≠ PyValue.pyList xs) :
    validate_none v = validate_none (PyValue.pyList [v]) := by
  have htl : toPyList v = [v] := by
    cases v with
    | pyList xs => exact absurd rfl (hv xs)
    | pyNone => rfl
    | pyBool b => rfl
    | pyInt n => rfl
    | pyStr s => rfl
  unfold validate_none
  rw [ht, htl]
  rw [show truthy (PyValue.pyList [v]) = true by simp [truthy]]
  rfl

/-! ## Claim theorems: the field validator and the output filename -/

/-- **C10**: the styling/animations field validator returns, for every
input, a list that never contains the string `"none"`; it maps falsy
input to the empty list, wraps any (truthy) non-list input into a
one-element list before filtering, and is idempotent: applying it to
its own output returns that output unchanged. -/
theorem c10_validate_none_props :
    (∀ v, (validate_none v).all (fun w => !isNoneStr w) = true)
    ∧ (∀ v, truthy v = false → validate_none v = [])
    ∧ (∀ v, truthy v = true → (∀ xs, v ≠ PyValue.pyList xs) →
        validate_none v = validate_none (PyValue.pyList [v]))
    ∧ (∀ v, validate_none (PyValue.pyList (validate_none v)) = validate_none v) :=
  ⟨validate_none_all_not_none, validate_none_falsy, validate_none_wrap, validate_none_idem⟩

/-- Witness for **C10** at concrete validator inputs. -/
theorem c10_validate_none_props_witness :
    ((validate_none (PyValue.pyList [PyValue.pyStr ("none"), PyValue.pyStr ("tailwind")])).all
        (fun w => !isNoneStr w) = true)
    ∧ validate_none (PyValue.pyStr ("")) = []
    ∧ validate_none (PyValue.pyStr ("tailwind"))
        = validate_none (PyValue.pyList [PyValue.pyStr ("tailwind")])
    ∧ validate_none (PyValue.pyList (validate_none (PyValue.pyList [PyValue.pyStr ("none")])))
        = validate_none (PyValue.pyList [PyValue.pyStr ("none")]) :=
  ⟨c10_validate_none_props.1 _,
   c10_validate_none_props.2.1 _ (by decide),
   c10_validate_none_props.2.2.1 _ (by decide) (fun _ h => PyValue.noConfusion h),
   c10_validate_none_props.2.2.2 _⟩

/-- **C9**: for every template file that is written, the output filename
equals the template's filename with the `.jinja` extension removed when
the template's extension is `.jinja`, and equals the template's
filename unchanged otherwise. -/
theorem c9_output_filename_spec :
    (∀ name, pySuffix name = ".jinja" → outputFilename name ++ ".jinja" = name)
    ∧ (∀ name, pySuffix name ≠ ".jinja" → outputFilename name = name) := by
  constructor
  · intro name h
    unfold outputFilename
    rw [if_pos h, ← h]
    exact pyStem_append_pySuffix name (by rw [h]; decide)
  · intro name h
    unfold outputFilename
    rw [if_neg h]

/-- Witness for **C9**: a `.jinja` template and a plain file. -/
theorem c9_output_filename_spec_witness :
    outputFilename (".env.development.jinja") ++ ".jinja" = ".env.development.jinja"
    ∧ outputFilename ("README.md") = "README.md" :=
  ⟨c9_output_filename_spec.1 _ (by decide), c9_output_filename_spec.2 _ (by decide)⟩


theorem existsPath_mkdirParents_mono (fs : FS) (q p : FPath)
    (h : fs.existsPath p = true) : (fs.mkdirParents q).existsPath p = true := by
  unfold FS.existsPath at h ⊢
  unfold FS.mkdirParents
  simp only [Bool.or_eq_true, List.any_eq_true, List.mem_append] at h ⊢
  rcases h with (h | ⟨q', hq', he⟩) | h
  · exact Or.inl (Or.inl h)
  · exact Or.inl (Or.inr ⟨q', Or.inr hq', he⟩)
  · exact Or.inr h

theorem existsPath_writeFile_mono (fs : FS) (q : FPath) (c : String) (p : FPath)
    (h : fs.existsPath p = true) : (fs.writeFile q c).existsPath p = true := by
  unfold FS.existsPath at h ⊢
  unfold FS.writeFile
  simp only [Bool.or_eq_true, List.any_eq_true, List.mem_cons] at h ⊢
  rcases h with (h | h) | ⟨f, hf, he⟩
  · exact Or.inl (Or.inl h)
  · exact Or.inl (Or.inr h)
  · exact Or.inr ⟨f, Or.inr hf, he⟩

theorem self_mem_ancestors : ∀ p : FPath, p ≠ [] → p ∈ ancestors p
  | [], h => absurd rfl h
  | [x], _ => by simp [ancestors]
  | x :: y :: rest, _ => by
    have ih := self_mem_ancestors (y :: rest) (by simp)
    unfold ancestors
    exact List.mem_cons_of_mem _ (List.mem_map_of_mem _ ih)

theorem existsPath_mkdirParents_mem (fs : FS) (p q : FPath) (h : q ∈ ancestors p) :
    (fs.mkdirParents p).existsPath q = true := by
  unfold FS.existsPath FS.mkdirParents
  simp only [Bool.or_eq_true, List.any_eq_true, List.mem_append, decide_eq_true_eq]
  exact Or.inl (Or.inr ⟨q, Or.inl h, rfl⟩)

theorem existsPath_mkdirParents_self (fs : FS) (p : FPath) (h : p ≠ []) :
    (fs.mkdirParents p).existsPath p = true :=
  existsPath_mkdirParents_mem fs p p (self_mem_ancestors p h)

theorem leadSeg_ne_nil (a : String) (r p : FPath) (h : leadSeg (a :: r) p = true) :
    p ≠ [] := by
  cases p with
  | nil => simp [leadSeg] at h
  | cons b bs => simp

theorem existsPath_rmtree_lead (fs : FS) (a : String) (r p : FPath)
    (h : leadSeg (a :: r) p = true) : (fs.rmtree (a :: r)).existsPath p = false := by
  unfold FS.rmtree FS.existsPath
  cases p with
  | nil => simp [leadSeg] at h
  | cons b bs =>
    simp only [List.isEmpty_cons, Bool.false_or, Bool.or_eq_false_iff,
      List.any_eq_false, List.mem_filter, decide_eq_true_eq]
    constructor
    · rintro x ⟨hx, hnl⟩ rfl
      rw [h] at hnl
      simp at hnl
    · rintro x ⟨hx, hnl⟩ hxe
      rw [hxe, h] at hnl
      simp at hnl


theorem processTemplateFile_state (env : JinjaEnv) (t : TemplateFile) (config : ProjectConfig)
    (b : Bool) (st st' : GenState) (e : Option GenError)
    (h : processTemplateFile env t config b st = (st', e)) :
    st'.project_path = st.project_path ∧ st'.project_name = st.project_name
    ∧ ∀ p, st.fs.existsPath p = true → st'.fs.existsPath p = true := by
  unfold processTemplateFile at h
  cases hg : getTemplateFallback env (relPathStr t) t.name with
  | none =>
    rw [hg] at h
    injection h with h1 h2
    subst h1
    exact ⟨rfl, rfl, fun p hp => hp⟩
  | some tsrc =>
    rw [hg] at h
    dsimp only at h
    split at h
    · injection h with h1 h2
      subst h1
      exact ⟨rfl, rfl, fun p hp => hp⟩
    · injection h with h1 h2
      subst h1
      refine ⟨rfl, rfl, fun p hp => ?_⟩
      exact existsPath_writeFile_mono _ _ _ _ (existsPath_mkdirParents_mono _ _ _ hp)

theorem processTemplates_state (env : JinjaEnv) (config : ProjectConfig) (b : Bool) :
    ∀ (entries : List TemplateFile) (st st' : GenState) (e : Option GenError),
      processTemplates env config b entries st = (st', e) →
      st'.project_path = st.project_path ∧ st'.project_name = st.project_name
      ∧ ∀ p, st.fs.existsPath p = true → st'.fs.existsPath p = true
  | [], st, st', e, h => by
    unfold processTemplates at h
    injection h with h1 h2
    subst h1
    exact ⟨rfl, rfl, fun p hp => hp⟩
  | t :: rest, st, st', e, h => by
    unfold processTemplates at h
    split at h
    · cases hpt : processTemplateFile env t config b st with
      | mk st1 e1 =>
        rw [hpt] at h
        have hs1 := processTemplateFile_state env t config b st st1 e1 hpt
        cases e1 with
        | some e2 =>
          injection h with h1 h2
          subst h1
          exact hs1
        | none =>
          have hs2 := processTemplates_state env config b rest st1 st' e h
          exact ⟨hs2.1.trans hs1.1, hs2.2.1.trans hs1.2.1,
                 fun p hp => hs2.2.2 p (hs1.2.2 p hp)⟩
    · exact processTemplates_state env config b rest st st' e h

theorem generateFiles_state (env : JinjaEnv) (rootEntries : List (String × Bool))
    (variantEntries : List TemplateFile) (config : ProjectConfig)
    (st st' : GenState) (e : Option GenError)
    (h : generateFiles env rootEntries variantEntries config st = (st', e)) :
    st'.project_path = st.project_path ∧ st'.project_name = st.project_name
    ∧ ∀ p, st.fs.existsPath p = true → st'.fs.existsPath p = true := by
  unfold generateFiles at h
  cases hp1 : processTemplates env config true
      (rootEntries.map (fun e => { relDir := [], name := e.1, isFile := e.2 })) st with
  | mk st1 e1 =>
    rw [hp1] at h
    have hs1 := processTemplates_state env config true _ st st1 e1 hp1
    cases e1 with
    | some e2 =>
      injection h with h1 h2
      subst h1
      exact hs1
    | none =>
      have hs2 := processTemplates_state env config false variantEntries st1 st' e h
      exact ⟨hs2.1.trans hs1.1, hs2.2.1.trans hs1.2.1,
             fun p hp => hs2.2.2 p (hs1.2.2 p hp)⟩


theorem createProjectDirs_dot (cwdName : String) (st : GenState)
    (h : st.project_name = ".") :
    createProjectDirs cwdName st
      = ({ st with
           project_name := cwdName
           project_path := []
           fs := st.fs.mkdirParents (["src", "pages"]) }, none) := by
  unfold createProjectDirs
  rw [if_pos h]
  rfl

theorem createProjectDirs_exists (cwdName : String) (st : GenState)
    (h : st.project_name ≠ ".") (he : st.fs.existsPath [st.project_name] = true) :
    createProjectDirs cwdName st = (st, some (GenError.fileExists st.project_name)) := by
  unfold createProjectDirs
  rw [if_neg h, if_pos he]

theorem createProjectDirs_new (cwdName : String) (st : GenState)
    (h : st.project_name ≠ ".") (he : st.fs.existsPath [st.project_name] = false) :
    createProjectDirs cwdName st
      = ({ st with
           project_path := [st.project_name]
           fs := (st.fs.mkdirParents [st.project_name]).mkdirParents
                   ([st.project_name] ++ ["src", "pages"]) }, none) := by
  unfold createProjectDirs
  rw [if_neg h, if_neg (by simp [he])]

theorem cleanupOnError_dot (st : GenState) (h : st.project_path = []) :
    cleanupOnError st = (st, true) := by
  unfold cleanupOnError
  rw [if_neg (by simp [h]), if_pos h]

theorem cleanupOnError_rm (st : GenState) (h : st.project_path ≠ [])
    (he : st.fs.existsPath st.project_path = true) :
    cleanupOnError st = ({ st with fs := st.fs.rmtree st.project_path }, false) := by
  unfold cleanupOnError
  rw [if_pos ⟨h, he⟩]

/-- **C7**: for every configuration, after the directory-materialization
step (`_create_project_dirs`) succeeds, the target project root exists
and the fixed subdirectory `src/pages` exists beneath it — including
when the target is the current directory, whose basename (`cwdName`) is
then adopted as the project name. -/
theorem c7_create_dirs :
    ∀ (cwdName : String) (st st' : GenState),
      createProjectDirs cwdName st = (st', none) →
      st'.fs.existsPath st'.project_path = true
      ∧ st'.fs.existsPath (st'.project_path ++ ["src", "pages"]) = true
      ∧ (st.project_name = "." → st'.project_name = cwdName ∧ st'.project_path = []) := by
  intro cwdName st st' h
  by_cases hdot : st.project_name = "."
  · rw [createProjectDirs_dot cwdName st hdot] at h
    injection h with h1 h2
    subst h1
    refine ⟨by simp [FS.existsPath], ?_, fun _ => ⟨rfl, rfl⟩⟩
    simpa using existsPath_mkdirParents_self st.fs (["src", "pages"]) (by simp)
  · cases he : st.fs.existsPath [st.project_name] with
    | true =>
      rw [createProjectDirs_exists cwdName st hdot he] at h
      injection h with h1 h2
      cases h2
    | false =>
      rw [createProjectDirs_new cwdName st hdot he] at h
      injection h with h1 h2
      subst h1
      refine ⟨?_, ?_, fun hh => absurd hh hdot⟩
      · exact existsPath_mkdirParents_mem _ _ _ (by unfold ancestors; exact List.mem_cons_self _ _)
      · exact existsPath_mkdirParents_self _ _ (by simp)



theorem generateProject_step1_err (cwdName : String) (env : JinjaEnv)
    (rootEntries : List (String × Bool)) (variantEntries : List TemplateFile)
    (npmInitOk npmInstallOk uvOk : Bool) (config : ProjectConfig)
    (st st1 : GenState) (e : GenError)
    (h : createProjectDirs cwdName st = (st1, some e)) :
    generateProject cwdName env rootEntries variantEntries npmInitOk npmInstallOk uvOk config st
      = { final := (cleanupOnError st1).1
          caughtError := some e
          cleanupWarned := (cleanupOnError st1).2 } := by
  unfold generateProject
  rw [h]

theorem generateProject_step2_err (cwdName : String) (env : JinjaEnv)
    (rootEntries : List (String × Bool)) (variantEntries : List TemplateFile)
    (npmInitOk npmInstallOk uvOk : Bool) (config : ProjectConfig)
    (st st1 st2 : GenState) (e : GenError)
    (h1 : createProjectDirs cwdName st = (st1, none))
    (h2 : generateFiles env rootEntries variantEntries config st1 = (st2, some e)) :
    generateProject cwdName env rootEntries variantEntries npmInitOk npmInstallOk uvOk config st
      = { final := (cleanupOnError st2).1
          caughtError := some e
          cleanupWarned := (cleanupOnError st2).2 } := by
  unfold generateProject
  rw [h1]
  dsimp only
  rw [h2]

theorem generateProject_ok (cwdName : String) (env : JinjaEnv)
    (rootEntries : List (String × Bool)) (variantEntries : List TemplateFile)
    (npmInitOk npmInstallOk uvOk : Bool) (config : ProjectConfig)
    (st st1 st2 : GenState)
    (h1 : createProjectDirs cwdName st = (st1, none))
    (h2 : generateFiles env rootEntries variantEntries config st1 = (st2, none)) :
    generateProject cwdName env rootEntries variantEntries npmInitOk npmInstallOk uvOk config st
      = { final := initializeUvDependencies uvOk (setupTailwindCss npmInitOk npmInstallOk config st2)
          caughtError := none
          cleanupWarned := false } := by
  unfold generateProject
  rw [h1]
  dsimp only
  rw [h2]


/-- **C2**: for every project name other than `"."`, if a file or
directory with that name already exists at the target location, project
creation fails with `FileExistsError` and no project files are
generated — the run leaves the filesystem exactly as it was, so the
existing directory is never merged into. -/
theorem c2_existing_rejected :
    ∀ (cwdName : String) (env : JinjaEnv) (rootEntries : List (String × Bool))
      (variantEntries : List TemplateFile) (npmInitOk npmInstallOk uvOk : Bool)
      (config : ProjectConfig) (name : String) (fs : FS),
      name ≠ "." → fs.existsPath [name] = true →
      generateProject cwdName env rootEntries variantEntries npmInitOk npmInstallOk uvOk config
          (initState name fs)
        = { final := initState name fs
            caughtError := some (GenError.fileExists name)
            cleanupWarned := true } := by
  intro cwdName env rootEntries variantEntries npmInitOk npmInstallOk uvOk config name fs hne hex
  have hcp := createProjectDirs_exists cwdName (initState name fs) hne hex
  rw [generateProject_step1_err cwdName env rootEntries variantEntries npmInitOk npmInstallOk
      uvOk config _ _ _ hcp]
  rw [cleanupOnError_dot (initState name fs) rfl]
  rfl

/-- **C1**: for every run of `generate_project` in which an exception
escapes one of the pipeline steps, the partially created project root
directory is deleted afterwards (every path at or below the root it had
created is gone); except when the target was the current directory
(project name `"."`), in which case nothing is deleted (every
previously existing path survives) and only a warning is issued. -/
theorem c1_rollback :
    ∀ (cwdName : String) (env : JinjaEnv) (rootEntries : List (String × Bool))
      (variantEntries : List TemplateFile) (npmInitOk npmInstallOk uvOk : Bool)
      (config : ProjectConfig) (name : String) (fs : FS) (e : GenError),
      (generateProject cwdName env rootEntries variantEntries npmInitOk npmInstallOk uvOk config
          (initState name fs)).caughtError = some e →
      ((name ≠ "." → fs.existsPath [name] = false →
          ∀ p, leadSeg [name] p = true →
            (generateProject cwdName env rootEntries variantEntries npmInitOk npmInstallOk uvOk
                config (initState name fs)).final.fs.existsPath p = false)
       ∧ (name = "." →
           (∀ p, fs.existsPath p = true →
              (generateProject cwdName env rootEntries variantEntries npmInitOk npmInstallOk uvOk
                  config (initState name fs)).final.fs.existsPath p = true)
           ∧ (generateProject cwdName env rootEntries variantEntries npmInitOk npmInstallOk uvOk
                config (initState name fs)).cleanupWarned = true)) := by
  intro cwdName env rootEntries variantEntries npmInitOk npmInstallOk uvOk config name fs e hcaught
  by_cases hdot : name = "."
  · subst hdot
    refine ⟨fun hne _ => absurd rfl hne, fun _ => ?_⟩
    have hcp : createProjectDirs cwdName (initState "." fs)
        = ({ project_name := cwdName
             project_path := []
             fs := fs.mkdirParents (["src", "pages"]) }, none) := by
      rw [createProjectDirs_dot cwdName (initState "." fs) rfl]
      rfl
    cases hg : generateFiles env rootEntries variantEntries config
        { project_name := cwdName
          project_path := []
          fs := fs.mkdirParents (["src", "pages"]) } with
    | mk st2 e2 =>
      cases e2 with
      | none =>
        rw [generateProject_ok cwdName env rootEntries variantEntries npmInitOk npmInstallOk
            uvOk config _ _ _ hcp hg] at hcaught
        simp at hcaught
      | some e3 =>
        have heq := generateProject_step2_err cwdName env rootEntries variantEntries npmInitOk
          npmInstallOk uvOk config _ _ _ _ hcp hg
        rw [heq]
        have hs := generateFiles_state env rootEntries variantEntries config _ st2 _ hg
        rw [cleanupOnError_dot st2 hs.1]
        exact ⟨fun p hp => hs.2.2 p (existsPath_mkdirParents_mono _ _ _ hp), rfl⟩
  · by_cases hex : fs.existsPath [name] = true
    · refine ⟨fun _ hne2 => ?_, fun hdd => absurd hdd hdot⟩
      rw [hne2] at hex
      cases hex
    · have hex2 : fs.existsPath [name] = false := by
        cases hv : fs.existsPath [name]
        · rfl
        · exact absurd hv hex
      refine ⟨fun _ _ p hlp => ?_, fun hdd => absurd hdd hdot⟩
      have hcp : createProjectDirs cwdName (initState name fs)
          = ({ project_name := name
               project_path := [name]
               fs := (fs.mkdirParents [name]).mkdirParents ([name] ++ ["src", "pages"]) },
             none) := by
        rw [createProjectDirs_new cwdName (initState name fs) hdot hex2]
        rfl
      cases hg : generateFiles env rootEntries variantEntries config
          { project_name := name
            project_path := [name]
            fs := (fs.mkdirParents [name]).mkdirParents ([name] ++ ["src", "pages"]) } with
      | mk st2 e2 =>
        cases e2 with
        | none =>
          rw [generateProject_ok cwdName env rootEntries variantEntries npmInitOk npmInstallOk
              uvOk config _ _ _ hcp hg] at hcaught
          simp at hcaught
        | some e3 =>
          have heq := generateProject_step2_err cwdName env rootEntries variantEntries npmInitOk
            npmInstallOk uvOk config _ _ _ _ hcp hg
          rw [heq]
          have hs := generateFiles_state env rootEntries variantEntries config _ st2 _ hg
          have hroot : st2.fs.existsPath [name] = true :=
            hs.2.2 [name] (existsPath_mkdirParents_mono _ _ _
              (existsPath_mkdirParents_self _ _ (by simp)))
          rw [cleanupOnError_rm st2 (by rw [hs.1]; simp) (by rw [hs.1]; exact hroot)]
          rw [hs.1]
          exact existsPath_rmtree_lead st2.fs name [] p hlp


theorem processTemplateFile_skip (env : JinjaEnv) (t : TemplateFile) (config : ProjectConfig)
    (b : Bool) (st : GenState) (tsrc : String)
    (hload : getTemplateFallback env (relPathStr t) t.name = some tsrc)
    (h1 : config.configure_pre_commit = false)
    (h2 : substrOf ("pre-commit") (pyLower t.name) = true) :
    processTemplateFile env t config b st = (st, none) := by
  unfold processTemplateFile
  rw [hload]
  dsimp only
  rw [if_pos (by rw [h1, h2]; rfl)]

theorem processTemplateFile_write (env : JinjaEnv) (t : TemplateFile) (config : ProjectConfig)
    (b : Bool) (st : GenState) (tsrc : String)
    (hload : getTemplateFallback env (relPathStr t) t.name = some tsrc)
    (hns : (!config.configure_pre_commit && substrOf ("pre-commit") (pyLower t.name)) = false) :
    processTemplateFile env t config b st
      = ({ st with
           fs := (st.fs.mkdirParents (if b then st.project_path
                                      else st.project_path ++ ["src"] ++ t.relDir)).writeFile
                   ((if b then st.project_path else st.project_path ++ ["src"] ++ t.relDir)
                     ++ [outputFilename t.name]) (env.render tsrc config) }, none) := by
  unfold processTemplateFile
  rw [hload]
  dsimp only
  rw [if_neg (by simp [hns])]

/-- **C3**: for every processed template file: if it is a shared root
template, its rendered output is written directly at the generated
project's top level; if it is a variant template, its rendered output
is written under the project's `src/` subdirectory at a path mirroring
the template's path relative to `templates/<type>/`. -/
theorem c3_target_placement :
    ∀ (env : JinjaEnv) (t : TemplateFile) (config : ProjectConfig) (st : GenState)
      (tsrc : String),
      getTemplateFallback env (relPathStr t) t.name = some tsrc →
      (!config.configure_pre_commit && substrOf ("pre-commit") (pyLower t.name)) = false →
      ((processTemplateFile env t config true st).1.fs.files
          = (st.project_path ++ [outputFilename t.name], env.render tsrc config) :: st.fs.files)
      ∧ ((processTemplateFile env t config false st).1.fs.files
          = (st.project_path ++ ["src"] ++ t.relDir ++ [outputFilename t.name],
             env.render tsrc config) :: st.fs.files) := by
  intro env t config st tsrc hload hns
  rw [processTemplateFile_write env t config true st tsrc hload hns,
      processTemplateFile_write env t config false st tsrc hload hns]
  exact ⟨rfl, rfl⟩

/-- **C4**: during file generation, a template file (whose load
succeeds) is skipped — no output file is written for it — if and only
if `configure_pre_commit` is `False` in the configuration and the
template's filename contains `"pre-commit"` (case-insensitive); every
other such template is rendered against the configuration and
written. -/
theorem c4_pre_commit_skip :
    ∀ (env : JinjaEnv) (t : TemplateFile) (config : ProjectConfig) (b : Bool) (st : GenState)
      (tsrc : String),
      getTemplateFallback env (relPathStr t) t.name = some tsrc →
      (((processTemplateFile env t config b st).1.fs.files = st.fs.files)
         ↔ (config.configure_pre_commit = false ∧ substrOf ("pre-commit") (pyLower t.name) = true))
      ∧ ((config.configure_pre_commit = false ∧ substrOf ("pre-commit") (pyLower t.name) = true) →
          processTemplateFile env t config b st = (st, none))
      ∧ ((¬(config.configure_pre_commit = false
              ∧ substrOf ("pre-commit") (pyLower t.name) = true)) →
          (processTemplateFile env t config b st).1.fs.files
            = (specTargetPath st.project_path b t.relDir (outputFilename t.name),
               env.render tsrc config) :: st.fs.files) := by
  intro env t config b st tsrc hload
  by_cases hc : config.configure_pre_commit = false ∧ substrOf ("pre-commit") (pyLower t.name) = true
  · have hskip := processTemplateFile_skip env t config b st tsrc hload hc.1 hc.2
    refine ⟨?_, fun _ => hskip, fun hn => absurd hc hn⟩
    rw [hskip]
    exact ⟨fun _ => hc, fun _ => rfl⟩
  · have hns : (!config.configure_pre_commit && substrOf ("pre-commit") (pyLower t.name)) = false := by
      cases hb : config.configure_pre_commit with
      | true => simp
      | false =>
        cases hs2 : substrOf ("pre-commit") (pyLower t.name) with
        | false => simp [hs2]
        | true => exact absurd ⟨hb, hs2⟩ hc
    have hw := processTemplateFile_write env t config b st tsrc hload hns
    refine ⟨?_, fun hcc => absurd hcc hc, fun _ => ?_⟩
    · rw [hw]
      constructor
      · intro habs
        exact absurd habs (List.cons_ne_self _ _)
      · intro hcc
        exact absurd hcc hc
    · rw [hw]
      cases b
      · rfl
      · rfl

/-- **C6**: for every template file, loading first attempts the
template's path relative to its template base directory; if and only if
that lookup raises does loading fall back to looking up the bare
filename; when both raise, the exception propagates — no other
validation of template content is performed before rendering. -/
theorem c6_lookup_fallback :
    (∀ (env : JinjaEnv) (relPath name tsrc : String),
        env.lookup relPath = some tsrc → getTemplateFallback env relPath name = some tsrc)
    ∧ (∀ (env : JinjaEnv) (relPath name : String),
        env.lookup relPath = none → getTemplateFallback env relPath name = env.lookup name)
    ∧ (∀ (env : JinjaEnv) (t : TemplateFile) (config : ProjectConfig) (b : Bool) (st : GenState),
        env.lookup (relPathStr t) = none → env.lookup t.name = none →
        processTemplateFile env t config b st = (st, some (GenError.templateNotFound t.name))) := by
  refine ⟨?_, ?_, ?_⟩
  · intro env relPath name tsrc h
    unfold getTemplateFallback
    rw [h]
  · intro env relPath name h
    unfold getTemplateFallback
    rw [h]
  · intro env t config b st h1 h2
    unfold processTemplateFile getTemplateFallback
    rw [h1, h2]

theorem processTemplates_cons (env : JinjaEnv) (config : ProjectConfig) (b : Bool)
    (t : TemplateFile) (rest : List TemplateFile) (st : GenState) :
    processTemplates env config b (t :: rest) st
      = if (t.isFile && hiddenAllowed t.name) = true then
          match processTemplateFile env t config b st with
          | (st1, some e) => (st1, some e)
          | (st1, none) => processTemplates env config b rest st1
        else processTemplates env config b rest st := rfl

theorem processTemplates_filter_eq (env : JinjaEnv) (config : ProjectConfig) (b : Bool) :
    ∀ (entries : List TemplateFile) (st : GenState),
      processTemplates env config b entries st
        = processTemplates env config b
            (entries.filter (fun t => t.isFile && hiddenAllowed t.name)) st
  | [], st => rfl
  | t :: rest, st => by
    rw [List.filter_cons]
    by_cases hc : (t.isFile && hiddenAllowed t.name) = true
    · rw [if_pos hc,
        processTemplates_cons env config b t rest st,
        processTemplates_cons env config b t
          (List.filter (fun t => t.isFile && hiddenAllowed t.name) rest) st,
        if_pos hc, if_pos hc]
      cases hpt : processTemplateFile env t config b st with
      | mk st1 e1 =>
        cases e1 with
        | some e2 => rfl
        | none => exact processTemplates_filter_eq env config b rest st1
    · have hcf : (t.isFile && hiddenAllowed t.name) = false := by
        cases hv : (t.isFile && hiddenAllowed t.name)
        · rfl
        · exact absurd hv hc
      rw [if_neg (by simp [hcf]),
        processTemplates_cons env config b t rest st, if_neg (by simp [hcf])]
      exact processTemplates_filter_eq env config b rest st

/-- **C8**: during enumeration of both template sets, a template file
whose name starts with `.` is processed only when its extension is
`.jinja`, and processing depends exactly on the entries that are
regular files passing that condition; every enumerated file whose name
does not start with `.` passes the condition. -/
theorem c8_hidden_enumeration :
    (∀ (env : JinjaEnv) (config : ProjectConfig) (b : Bool) (entries : List TemplateFile)
        (st : GenState),
        processTemplates env config b entries st
          = processTemplates env config b
              (entries.filter (fun t => t.isFile && hiddenAllowed t.name)) st)
    ∧ (∀ (env : JinjaEnv) (config : ProjectConfig) (b : Bool) (t : TemplateFile)
        (rest : List TemplateFile) (st : GenState),
        startsWithDot t.name = true → pySuffix t.name ≠ ".jinja" →
        processTemplates env config b (t :: rest) st = processTemplates env config b rest st)
    ∧ (∀ name : String, startsWithDot name = false → hiddenAllowed name = true) := by
  refine ⟨fun env config b entries st => processTemplates_filter_eq env config b entries st,
    ?_, ?_⟩
  · intro env config b t rest st h1 h2
    have hh : hiddenAllowed t.name = false := by
      unfold hiddenAllowed
      rw [h1]
      simp [h2]
    rw [processTemplates_cons env config b t rest st, if_neg (by simp [hh])]
  · intro name h
    unfold hiddenAllowed
    rw [h]
    rfl


theorem pyStrListOf_mem :
    ∀ (l : List PyValue) (strs : List String), pyStrListOf l = some strs →
      ∀ s ∈ strs, PyValue.pyStr s ∈ l
  | [], strs, h => by
    unfold pyStrListOf at h
    injection h with h
    subst h
    intro s hs
    cases hs
  | .pyStr s0 :: rest, strs, h => by
    unfold pyStrListOf at h
    cases hr : pyStrListOf rest with
    | none =>
      rw [hr] at h
      cases h
    | some rs =>
      rw [hr] at h
      injection h with h
      subst h
      intro s hs
      rcases List.mem_cons.mp hs with rfl | hs
      · exact List.mem_cons_self _ _
      · exact List.mem_cons_of_mem _ (pyStrListOf_mem rest rs hr s hs)
  | .pyNone :: rest, strs, h => by simp [pyStrListOf] at h
  | .pyBool b :: rest, strs, h => by simp [pyStrListOf] at h
  | .pyInt n :: rest, strs, h => by simp [pyStrListOf] at h
  | .pyList xs :: rest, strs, h => by simp [pyStrListOf] at h

theorem validate_none_str_ne_none (v : PyValue) (s : String)
    (h : PyValue.pyStr s ∈ validate_none v) : s ≠ "none" := by
  have hall := validate_none_all_not_none v
  rw [List.all_eq_true] at hall
  have := hall _ h
  simpa [isNoneStr] using this

theorem processTemplateFile_rendered (env : JinjaEnv) (t : TemplateFile)
    (config : ProjectConfig) (b : Bool) (st : GenState) (p : FPath) (c : String)
    (h : (p, c) ∈ (processTemplateFile env t config b st).1.fs.files) :
    (p, c) ∈ st.fs.files ∨ ∃ tsrc, c = env.render tsrc config := by
  cases hg : getTemplateFallback env (relPathStr t) t.name with
  | none =>
    unfold processTemplateFile at h
    rw [hg] at h
    exact Or.inl h
  | some tsrc =>
    unfold processTemplateFile at h
    rw [hg] at h
    dsimp only at h
    split at h
    · exact Or.inl h
    · rcases List.mem_cons.mp h with heq | hmem
      · right
        exact ⟨tsrc, congrArg Prod.snd heq⟩
      · exact Or.inl hmem

theorem processTemplates_rendered (env : JinjaEnv) (config : ProjectConfig) (b : Bool) :
    ∀ (entries : List TemplateFile) (st : GenState) (p : FPath) (c : String),
      (p, c) ∈ (processTemplates env config b entries st).1.fs.files →
      (p, c) ∈ st.fs.files ∨ ∃ tsrc, c = env.render tsrc config
  | [], st, p, c, h => Or.inl h
  | t :: rest, st, p, c, h => by
    rw [processTemplates_cons env config b t rest st] at h
    split at h
    · cases hpt : processTemplateFile env t config b st with
      | mk st1 e1 =>
        rw [hpt] at h
        cases e1 with
        | some e2 =>
          exact processTemplateFile_rendered env t config b st p c (by rw [hpt]; exact h)
        | none =>
          rcases processTemplates_rendered env config b rest st1 p c h with hmem | hr
          · exact processTemplateFile_rendered env t config b st p c (by rw [hpt]; exact hmem)
          · exact Or.inr hr
    · exact processTemplates_rendered env config b rest st p c h

theorem generateFiles_rendered (env : JinjaEnv) (rootEntries : List (String × Bool))
    (variantEntries : List TemplateFile) (config : ProjectConfig) (st : GenState)
    (p : FPath) (c : String)
    (h : (p, c) ∈ (generateFiles env rootEntries variantEntries config st).1.fs.files) :
    (p, c) ∈ st.fs.files ∨ ∃ tsrc, c = env.render tsrc config := by
  unfold generateFiles at h
  cases hp1 : processTemplates env config true
      (rootEntries.map (fun e => { relDir := [], name := e.1, isFile := e.2 })) st with
  | mk st1 e1 =>
    rw [hp1] at h
    cases e1 with
    | some e2 =>
      exact processTemplates_rendered env config true _ st p c (by rw [hp1]; exact h)
    | none =>
      rcases processTemplates_rendered env config false variantEntries st1 p c h with hmem | hr
      · exact processTemplates_rendered env config true _ st p c (by rw [hp1]; exact hmem)
      · exact Or.inr hr


/-- **C5**: the configuration object is a validated record: every
`ProjectConfig` construction runs the field validator (normalizing the
styling and animations lists, which therefore never contain `"none"`),
and the generation pipeline takes the constructed record as an
immutable value: every file content it writes is rendered against that
same configuration. -/
theorem c5_config_validated_immutable :
    (∀ (raw : RawConfigInput) (cfg : ProjectConfig),
        ProjectConfig.construct raw = some cfg →
        pyStrListOf (validate_none raw.styling) = some cfg.styling
        ∧ pyStrListOf (validate_none raw.animations) = some cfg.animations
        ∧ (∀ s ∈ cfg.styling, s ≠ "none")
        ∧ (∀ s ∈ cfg.animations, s ≠ "none"))
    ∧ (∀ (env : JinjaEnv) (rootEntries : List (String × Bool))
        (variantEntries : List TemplateFile) (config : ProjectConfig) (st : GenState)
        (p : FPath) (c : String),
        (p, c) ∈ (generateFiles env rootEntries variantEntries config st).1.fs.files →
        (p, c) ∈ st.fs.files ∨ ∃ tsrc, c = env.render tsrc config) := by
  constructor
  · intro raw cfg h
    unfold ProjectConfig.construct at h
    cases hst : pyStrListOf (validate_none raw.styling) with
    | none =>
      rw [hst] at h
      cases h
    | some stl =>
      cases han : pyStrListOf (validate_none raw.animations) with
      | none =>
        rw [hst, han] at h
        cases h
      | some anl =>
        rw [hst, han] at h
        injection h with h
        subst h
        refine ⟨rfl, rfl, ?_, ?_⟩
        · intro s hs
          exact validate_none_str_ne_none _ s (pyStrListOf_mem _ _ hst s hs)
        · intro s hs
          exact validate_none_str_ne_none _ s (pyStrListOf_mem _ _ han s hs)
  · intro env rootEntries variantEntries config st p c h
    exact generateFiles_rendered env rootEntries variantEntries config st p c h

/-- Witness for **C5** at the concrete raw input `rawA` and a concrete
`generateFiles` run. -/
theorem c5_config_validated_immutable_witness :
    pyStrListOf (validate_none rawA.styling) = some cfgA.styling
    ∧ pyStrListOf (validate_none rawA.animations) = some cfgA.animations
    ∧ ("tailwind" : String) ≠ "none"
    ∧ ((["pyproject.toml"], envA.render ("PYPROJECT-TEMPLATE") cfgA)
         ∈ (initState ("proj") (⟨[], []⟩ : FS)).fs.files
       ∨ ∃ tsrc, envA.render ("PYPROJECT-TEMPLATE") cfgA = envA.render tsrc cfgA) := by
  have h := c5_config_validated_immutable.1 rawA cfgA (by decide)
  refine ⟨h.1, h.2.1, h.2.2.1 ("tailwind") (by decide), ?_⟩
  exact c5_config_validated_immutable.2 envA [("pyproject.toml.jinja", true)] [] cfgA
    (initState ("proj") ⟨[], []⟩) ["pyproject.toml"]
    (envA.render ("PYPROJECT-TEMPLATE") cfgA) (by decide)


/-- Witness for **C1**: a failing run (missing template) for project
`proj` deletes the created root. -/
theorem c1_rollback_witness :
    (generateProject ("cwd") envEmpty []
        [{ relDir := [], name := "missing.jinja", isFile := true }]
        true true true cfgA (initState ("proj") ⟨[], []⟩)).final.fs.existsPath ["proj"]
      = false := by
  have h := c1_rollback ("cwd") envEmpty []
    [{ relDir := [], name := "missing.jinja", isFile := true }]
    true true true cfgA ("proj") ⟨[], []⟩ (GenError.templateNotFound ("missing.jinja"))
    (by decide)
  exact h.1 (by decide) (by decide) ["proj"] (by decide)

/-- Witness for **C2**: an existing `proj` directory is rejected and the
filesystem is left unchanged. -/
theorem c2_existing_rejected_witness :
    generateProject ("cwd") envEmpty [] [] true true true cfgA
        (initState ("proj") ⟨[["proj"]], []⟩)
      = { final := initState ("proj") ⟨[["proj"]], []⟩
          caughtError := some (GenError.fileExists ("proj"))
          cleanupWarned := true } :=
  c2_existing_rejected ("cwd") envEmpty [] [] true true true cfgA ("proj") ⟨[["proj"]], []⟩
    (by decide) (by decide)

/-- Witness for **C3**: the `pages/home.py.jinja` variant template at a
concrete state lands at the top level when treated as a root template
and under `src/pages/` when treated as a variant template. -/
theorem c3_target_placement_witness :
    ((processTemplateFile envA tHome cfgA true stC3).1.fs.files
        = (stC3.project_path ++ [outputFilename tHome.name],
           envA.render ("HOMEPAGE-TEMPLATE") cfgA) :: stC3.fs.files)
    ∧ ((processTemplateFile envA tHome cfgA false stC3).1.fs.files
        = (stC3.project_path ++ ["src"] ++ tHome.relDir ++ [outputFilename tHome.name],
           envA.render ("HOMEPAGE-TEMPLATE") cfgA) :: stC3.fs.files) :=
  c3_target_placement envA tHome cfgA stC3 ("HOMEPAGE-TEMPLATE") (by decide) (by decide)

/-- Witness for **C4**: the pre-commit template under the
pre-commit-disabled configuration `cfgB`. -/
theorem c4_pre_commit_skip_witness :
    (((processTemplateFile envA tPre cfgB true stC3).1.fs.files = stC3.fs.files)
       ↔ (cfgB.configure_pre_commit = false ∧ substrOf ("pre-commit") (pyLower tPre.name) = true))
    ∧ ((cfgB.configure_pre_commit = false ∧ substrOf ("pre-commit") (pyLower tPre.name) = true) →
        processTemplateFile envA tPre cfgB true stC3 = (stC3, none))
    ∧ ((¬(cfgB.configure_pre_commit = false
            ∧ substrOf ("pre-commit") (pyLower tPre.name) = true)) →
        (processTemplateFile envA tPre cfgB true stC3).1.fs.files
          = (specTargetPath stC3.project_path true tPre.relDir (outputFilename tPre.name),
             envA.render ("PRECOMMIT-TEMPLATE") cfgB) :: stC3.fs.files) :=
  c4_pre_commit_skip envA tPre cfgB true stC3 ("PRECOMMIT-TEMPLATE") (by decide)

/-- Witness for **C6**: a successful relative-path lookup, a fallback
after a failed one, and a run in which both lookups raise. -/
theorem c6_lookup_fallback_witness :
    getTemplateFallback envA ("pyproject.toml.jinja") ("x") = some ("PYPROJECT-TEMPLATE")
    ∧ getTemplateFallback envA ("no/such.jinja") ("such.jinja") = envA.lookup ("such.jinja")
    ∧ processTemplateFile envEmpty { relDir := [], name := "m.jinja", isFile := true } cfgA true
        (initState ("p") ⟨[], []⟩)
      = (initState ("p") ⟨[], []⟩, some (GenError.templateNotFound ("m.jinja"))) :=
  ⟨c6_lookup_fallback.1 envA _ _ _ (by decide),
   c6_lookup_fallback.2.1 envA _ _ (by decide),
   c6_lookup_fallback.2.2 envEmpty _ cfgA true _ (by decide) (by decide)⟩

/-- Witness for **C7**: creating a fresh `proj` in an empty filesystem
yields `c7out`, whose root and `src/pages` exist. -/
theorem c7_create_dirs_witness :
    c7out.fs.existsPath c7out.project_path = true
    ∧ c7out.fs.existsPath (c7out.project_path ++ ["src", "pages"]) = true := by
  have h := c7_create_dirs ("cwd") (initState ("proj") ⟨[], []⟩) c7out (by decide)
  exact ⟨h.1, h.2.1⟩

/-- Witness for **C8**: enumeration over a hidden non-jinja file and a
regular template, the no-op on `.gitignore`, and a visible name. -/
theorem c8_hidden_enumeration_witness :
    (processTemplates envA cfgA true
        [{ relDir := [], name := ".gitignore", isFile := true },
         { relDir := [], name := "pyproject.toml.jinja", isFile := true }]
        (initState ("proj") ⟨[], []⟩)
      = processTemplates envA cfgA true
          ([{ relDir := [], name := ".gitignore", isFile := true },
            { relDir := [], name := "pyproject.toml.jinja", isFile := true }].filter
            (fun t => t.isFile && hiddenAllowed t.name)) (initState ("proj") ⟨[], []⟩))
    ∧ (processTemplates envA cfgA true
        ({ relDir := [], name := ".gitignore", isFile := true } :: [])
        (initState ("proj") ⟨[], []⟩)
      = processTemplates envA cfgA true [] (initState ("proj") ⟨[], []⟩))
    ∧ hiddenAllowed ("README.md") = true :=
  ⟨c8_hidden_enumeration.1 envA cfgA true _ _,
   c8_hidden_enumeration.2.1 envA cfgA true _ [] _ (by decide) (by decide),
   c8_hidden_enumeration.2.2 ("README.md") (by decide)⟩

end CreateDashApp